import Mathlib

/-!
Verification of `scripts/generate_toplangs.py`: a shallow embedding of the
repository-listing, language-aggregation and SVG-rendering logic, together
with theorems settling the specification's claims.

Network responses are modelled as explicit inputs: each repository record
carries the (possibly failed) response of its per-repository language fetch,
the repository lister receives the sequence of page responses as a function,
and the user-profile fetch receives the status code and body of its single
response.  Failed responses (status other than 200) are represented exactly
where the script checks `r.status_code != 200`.
-/

namespace TopLangs

/-- A repository record as consumed by the script: the `archived` flag,
the optional `stargazers_count` field, the optional `languages_url` field,
and the response of the GET to `languages_url` (`none` models a non-200
status, `some langs` a 200 response whose JSON body is the ordered
association list `langs`). -/
structure Repo where
  archived : Bool
  stargazers_count : Option Nat
  languages_url : Option String
  langResp : Option (List (String × Nat))
deriving Repr, DecidableEq

/-- One page response of the repository-listing endpoint. -/
structure PageResp where
  status : Nat
  body : List Repo

/-- `get_repos` (lines 35-52): fetch pages 1, 2, ... and accumulate their
bodies; abort with the status code (the script raises `SystemExit`) on any
non-200 page; stop at the first empty page.  `fuel` bounds the number of
page requests; `none` means the fuel ran out before an empty page appeared
(the Python loop would still be running). -/
def getReposAux (pages : Nat → PageResp) : Nat → Nat → List Repo → Option (Except Nat (List Repo))
  | 0, _, _ => none
  | fuel + 1, page, acc =>
    let r := pages page
    if r.status ≠ 200 then some (Except.error r.status)
    else if r.body = [] then some (Except.ok acc)
    else getReposAux pages fuel (page + 1) (acc ++ r.body)

/-- The entry point of `get_repos`: pages are requested starting at page 1
with an empty accumulator. -/
def get_repos (pages : Nat → PageResp) (fuel : Nat) : Option (Except Nat (List Repo)) :=
  getReposAux pages fuel 1 []

/-- `totals[lang] += bytes_count` on a `defaultdict(int)` rendered as an
insertion-ordered association list: update the existing entry in place, or
append a new entry at the end. -/
def addLang : List (String × Nat) → String × Nat → List (String × Nat)
  | [], e => [e]
  | (k, v) :: rest, (lang, b) =>
    if k = lang then (k, v + b) :: rest else (k, v) :: addLang rest (lang, b)

/-- The body of the `for repo in repos` loop of `aggregate_languages`
(lines 61-73): skip archived repositories, skip a missing or empty
`languages_url`, skip a non-200 language response, otherwise add every
(language, byte count) pair of the response into the totals. -/
def repoStep (totals : List (String × Nat)) (repo : Repo) : List (String × Nat) :=
  if repo.archived then totals
  else
    match repo.languages_url with
    | none => totals
    | some u =>
      if u = "" then totals
      else
        match repo.langResp with
        | none => totals
        | some langs => langs.foldl addLang totals

/-- `aggregate_languages` (lines 55-74): fold the per-repository step over
the repository list starting from an empty totals mapping. -/
def aggregate_languages (repos : List Repo) : List (String × Nat) :=
  repos.foldl repoStep []

/-- `LANG_COLORS` (lines 17-30). -/
def LANG_COLORS : List (String × String) :=
  [("Python", "#3572A5"), ("JavaScript", "#f1e05a"), ("TypeScript", "#2b7489"),
   ("C", "#555555"), ("C++", "#f34b7d"), ("Java", "#b07219"),
   ("HTML", "#e34c26"), ("CSS", "#563d7c"), ("Go", "#00ADD8"),
   ("Shell", "#89e051"), ("Ruby", "#701516"), ("PHP", "#4F5D95")]

/-- `DEFAULT_COLOR` (line 31). -/
def DEFAULT_COLOR : String := "#6c757d"

/-- `LANG_COLORS.get(lang, DEFAULT_COLOR)` (line 100). -/
def langColor (lang : String) : String := (LANG_COLORS.lookup lang).getD DEFAULT_COLOR

/-- `right_margin = 64` (line 81). -/
def right_margin : Nat := 64

/-- `width = 500 + right_margin` (line 82). -/
def width : Nat := 500 + right_margin

/-- `row_height = 22` (line 83). -/
def row_height : Nat := 22

/-- `padding = 10` (line 84). -/
def padding : Nat := 10

/-- `x_label = 60` (line 93). -/
def x_label : Nat := 60

/-- `bar_x = 160` (line 94). -/
def bar_x : Nat := 160

/-- `bar_w = width - bar_x - padding - 40` (line 96). -/
def bar_w : Nat := width - bar_x - padding - 40

/-- Stable insertion of one entry into a list sorted by byte count
descending: the new entry goes in front of the first entry whose count does
not exceed it, so among equal counts an earlier original entry stays first. -/
def insertDesc (a : String × Nat) : List (String × Nat) → List (String × Nat)
  | [] => [a]
  | h :: t => if h.2 ≤ a.2 then a :: h :: t else h :: insertDesc a t

/-- `sorted(lang_data.items(), key=lambda kv: kv[1], reverse=True)`
(line 79): Python's sort is stable, and a stable descending sort by the
byte count is exactly insertion sort with `insertDesc`. -/
def sortDesc (l : List (String × Nat)) : List (String × Nat) := l.foldr insertDesc []

/-- `items = sorted(...)[:top_n]` (line 79). -/
def chartItems (lang_data : List (String × Nat)) (top_n : Nat) : List (String × Nat) :=
  (sortDesc lang_data).take top_n

/-- `total_bytes = sum(lang_data.values())` (line 78). -/
def total_bytes (lang_data : List (String × Nat)) : Nat :=
  (lang_data.map Prod.snd).sum

/-- `pct = (bytes_count / total_bytes * 100) if total_bytes else 0`
(line 99), over exact rational arithmetic. -/
def pct (total b : Nat) : ℚ :=
  if total ≠ 0 then (b : ℚ) / (total : ℚ) * 100 else 0

/-- Round a rational to the nearest integer, ties to even: the rounding
used by `f"{pct:.1f}"` on the scaled value. -/
def roundHalfEven (q : ℚ) : ℤ :=
  let fl := ⌊q⌋
  let fr := q - (fl : ℚ)
  if fr < 1 / 2 then fl
  else if 1 / 2 < fr then fl + 1
  else if Even fl then fl else fl + 1

/-- `pct_text = f"{pct:.1f}%"` (line 104): one decimal digit, then a
percent sign. -/
def pctText (p : ℚ) : String :=
  let n := (roundHalfEven (p * 10)).toNat
  let a := n / 10
  let b := n % 10
  s!"{a}.{b}%"

/-- `est_text_w = max(24, len(pct_text) * 7)` (line 105). -/
def est_text_w (t : String) : Nat := max 24 (t.length * 7)

/-- `pct_x_candidate = bar_x + bar_w + 6` (line 106). -/
def pct_x_candidate : Nat := bar_x + bar_w + 6

/-- `max_pct_x = width - padding` (line 107). -/
def max_pct_x : Nat := width - padding

/-- Lines 108-113: the percentage text's x position and anchor, switching
to a right (`end`) anchor flush at `max_pct_x` when the left-anchored text
would overflow. -/
def pctPos (t : String) : Nat × String :=
  if max_pct_x < pct_x_candidate + est_text_w t then (max_pct_x, "end")
  else (pct_x_candidate, "start")

/-- Python's `int()` on a rational: truncation toward zero. -/
def pyInt (q : ℚ) : ℤ := Int.tdiv q.num (q.den : ℤ)

/-- `bar_len = int(bar_w * (pct / 100)) if pct else 0` (line 116). -/
def bar_len (p : ℚ) : ℤ :=
  if p ≠ 0 then pyInt ((bar_w : ℚ) * (p / 100)) else 0

/-- `height = padding * 2 + row_height * len(items)` (line 85). -/
def svgHeight (items : List (String × Nat)) : Nat :=
  padding * 2 + row_height * items.length

/-- The `<style>` line of the chart SVG (line 89). -/
def styleLine : String :=
  "<style>text\x7bfont-family:Arial, Helvetica, sans-serif; font-size:12px; fill:#333\x7d</style>"

/-- The opening `<svg>` line of the chart SVG (line 88). -/
def svgHeader (h : Nat) : String :=
  s!"<svg xmlns=\"http://www.w3.org/2000/svg\" width=\"{width}\" height=\"{h}\" viewBox=\"0 0 {width} {h}\">"

/-- The three lines emitted for one chart row (lines 98-117): label text,
percentage text, bar rectangle. -/
def rowLines (total : Nat) (y : Nat) (item : String × Nat) : List String :=
  let lang := item.1
  let p := pct total item.2
  let color := langColor lang
  let t := pctText p
  let pos := pctPos t
  let px := pos.1
  let anchor := pos.2
  let bl := bar_len p
  let yText := y + 14
  [s!"<text x=\"{x_label}\" y=\"{yText}\">{lang}</text>",
   s!"<text x=\"{px}\" y=\"{yText}\" text-anchor=\"{anchor}\">{t}</text>",
   s!"<rect x=\"{bar_x}\" y=\"{y}\" width=\"{bl}\" height=\"14\" fill=\"{color}\" rx=\"3\"/>"]

/-- The row loop of `build_svg`: `y` starts at `padding` and advances by
`row_height` per row (lines 92, 98-118). -/
def rowsLines (total : Nat) : Nat → List (String × Nat) → List String
  | _, [] => []
  | y, item :: rest => rowLines total y item ++ rowsLines total (y + row_height) rest

/-- `build_svg` (lines 77-122) as the list of emitted SVG lines, header and
footer included; the file written is these lines joined by newlines. -/
def build_svg (lang_data : List (String × Nat)) (top_n : Nat := 6) : List String :=
  let items := chartItems lang_data top_n
  let total := total_bytes lang_data
  svgHeader (svgHeight items) :: styleLine :: (rowsLines total padding items ++ ["</svg>"])

/-- `get_user_info` (lines 129-140): a non-200 response yields the empty
JSON object (with a printed warning); a 200 response yields its body.  The
profile body is an association list from field name to integer value. -/
def get_user_info (status : Nat) (body : List (String × Nat)) : List (String × Nat) :=
  if status ≠ 200 then [] else body

/-- `user.get(key)` on the profile object. -/
def userGet (user : List (String × Nat)) (key : String) : Option Nat :=
  user.lookup key

/-- Lines 210-213 of `main`: `public_repos = user.get("public_repos") if
user else None`, then fall back to `len(repos)` when the result is `None`. -/
def resolve_public_repos (user : List (String × Nat)) (repos : List Repo) : Nat :=
  let pr := if user ≠ [] then userGet user "public_repos" else none
  match pr with
  | none => repos.length
  | some n => n

/-- Line 216 of `main`: `total_stars = sum((r.get('stargazers_count') or 0)
for r in repos if not r.get('archived'))`. -/
def total_stars (repos : List Repo) : Nat :=
  ((repos.filter (fun r => !r.archived)).map (fun r => r.stargazers_count.getD 0)).sum

/-- `left_w = max(80, 8 * len(label) + 10)` (line 146). -/
def badge_left_w (label : String) : Nat := max 80 (8 * label.length + 10)

/-- `right_w = max(50, 8 * len(value) + 10)` (line 147). -/
def badge_right_w (value : String) : Nat := max 50 (8 * value.length + 10)

/-- `width = left_w + right_w` of `build_badge` (line 148). -/
def badge_width (label value : String) : Nat :=
  badge_left_w label + badge_right_w value

/-- The repository set of the spec's end-to-end example. -/
def exampleRepos : List Repo :=
  [{ archived := false, stargazers_count := none, languages_url := some "u1",
     langResp := some [("Go", 100)] },
   { archived := true, stargazers_count := none, languages_url := some "u2",
     langResp := some [("Go", 1000)] },
   { archived := false, stargazers_count := none, languages_url := some "u3",
     langResp := some [("Python", 300)] }]

/-! ### Helper lemmas -/

/-- An archived repository leaves the running totals unchanged. -/
theorem repoStep_archived (r : Repo) (h : r.archived = true) (totals : List (String × Nat)) :
    repoStep totals r = totals := by
  simp [repoStep, h]

/-- A repository whose language fetch failed leaves the running totals
unchanged. -/
theorem repoStep_skip (r : Repo) (h : r.langResp = none) (totals : List (String × Nat)) :
    repoStep totals r = totals := by
  cases hu : r.languages_url <;> simp [repoStep, hu, h]

/-- Folding the aggregation step ignores archived repositories. -/
theorem foldl_repoStep_filter (repos : List Repo) :
    ∀ acc, repos.foldl repoStep acc = (repos.filter fun r => !r.archived).foldl repoStep acc := by
  induction repos with
  | nil => intro acc; rfl
  | cons r rest ih =>
    intro acc
    by_cases h : r.archived = true
    · rw [List.foldl_cons, repoStep_archived r h acc]
      have hf : (r :: rest).filter (fun r => !r.archived) =
          rest.filter (fun r => !r.archived) := by
        simp [List.filter_cons, h]
      rw [hf, ih]
    · have hf : (r :: rest).filter (fun r => !r.archived) =
          r :: rest.filter (fun r => !r.archived) := by
        simp [List.filter_cons, h]
      rw [hf, List.foldl_cons, List.foldl_cons, ih]

/-- Membership after a stable descending insertion. -/
theorem mem_insertDesc {x a : String × Nat} :
    ∀ {l : List (String × Nat)}, x ∈ insertDesc a l → x = a ∨ x ∈ l := by
  intro l
  induction l with
  | nil => simp [insertDesc]
  | cons h t ih =>
    simp only [insertDesc]
    split
    · intro hx
      rcases List.mem_cons.mp hx with h1 | h1
      · exact Or.inl h1
      · exact Or.inr h1
    · intro hx
      rcases List.mem_cons.mp hx with h1 | h1
      · exact Or.inr (h1 ▸ List.mem_cons_self h t)
      · rcases ih h1 with h2 | h2
        · exact Or.inl h2
        · exact Or.inr (List.mem_cons_of_mem h h2)

/-- Stable descending insertion preserves descending order. -/
theorem pairwise_insertDesc (a : String × Nat) :
    ∀ {l : List (String × Nat)}, List.Pairwise (fun x y => y.2 ≤ x.2) l →
      List.Pairwise (fun x y => y.2 ≤ x.2) (insertDesc a l) := by
  intro l
  induction l with
  | nil => intro _; simp [insertDesc]
  | cons h t ih =>
    intro hp
    rw [List.pairwise_cons] at hp
    obtain ⟨hh, ht⟩ := hp
    simp only [insertDesc]
    split
    next hle =>
      refine List.pairwise_cons.mpr ⟨?_, List.pairwise_cons.mpr ⟨hh, ht⟩⟩
      intro y hy
      rcases List.mem_cons.mp hy with rfl | hy2
      · exact hle
      · exact le_trans (hh y hy2) hle
    next hlt =>
      refine List.pairwise_cons.mpr ⟨?_, ih ht⟩
      intro y hy
      rcases mem_insertDesc hy with rfl | hy2
      · exact Nat.le_of_lt (Nat.lt_of_not_le hlt)
      · exact hh y hy2

/-- The chart sort produces a list sorted by byte count descending. -/
theorem pairwise_sortDesc (l : List (String × Nat)) :
    List.Pairwise (fun x y => y.2 ≤ x.2) (sortDesc l) := by
  induction l with
  | nil => simp [sortDesc]
  | cons x xs ih => exact pairwise_insertDesc x ih

/-- Rounding an integer-valued rational is the identity. -/
theorem roundHalfEven_intCast (n : ℤ) : roundHalfEven (n : ℚ) = n := by
  have h1 : ⌊(n : ℚ)⌋ = n := Int.floor_intCast n
  simp only [roundHalfEven, h1]
  norm_num

/-! ### Claims -/

/-- C1: archived repositories contribute nothing to any aggregate:
`aggregate_languages` yields the same totals on a repository list as on its
non-archived sublist, and the orchestrator's star total sums only over
non-archived entries. -/
theorem archived_contribute_nothing (repos : List Repo) :
    aggregate_languages repos = aggregate_languages (repos.filter fun r => !r.archived) ∧
    total_stars repos = total_stars (repos.filter fun r => !r.archived) := by
  constructor
  · exact foldl_repoStep_filter repos []
  · simp [total_stars, List.filter_filter]

/-- C2: the chart renderer sorts languages by byte count descending and keeps
only the top N (default 6), with percentage byte_count / grand_total * 100;
on the spec's end-to-end example the aggregated totals are
Go ↦ 100, Python ↦ 300 and a top-2 chart renders Python at 75.0% then Go at
25.0%. -/
theorem chart_sort_topn_example :
    (∀ (l : List (String × Nat)) (n : Nat),
      List.Pairwise (fun a b => b.2 ≤ a.2) (chartItems l n)) ∧
    (∀ (l : List (String × Nat)) (n : Nat), (chartItems l n).length ≤ n) ∧
    (∀ l : List (String × Nat), build_svg l = build_svg l 6) ∧
    aggregate_languages exampleRepos = [("Go", 100), ("Python", 300)] ∧
    chartItems (aggregate_languages exampleRepos) 2 = [("Python", 300), ("Go", 100)] ∧
    total_bytes (aggregate_languages exampleRepos) = 400 ∧
    pct 400 300 = 75 ∧ pctText (pct 400 300) = "75.0%" ∧
    pct 400 100 = 25 ∧ pctText (pct 400 100) = "25.0%" := by
  have e75 : pct 400 300 = 75 := by norm_num [pct]
  have e25 : pct 400 100 = 25 := by norm_num [pct]
  have r75 : roundHalfEven ((75 : ℚ) * 10) = 750 := by
    have h : ((75 : ℚ) * 10) = ((750 : ℤ) : ℚ) := by norm_num
    rw [h, roundHalfEven_intCast]
  have r25 : roundHalfEven ((25 : ℚ) * 10) = 250 := by
    have h : ((25 : ℚ) * 10) = ((250 : ℤ) : ℚ) := by norm_num
    rw [h, roundHalfEven_intCast]
  refine ⟨?_, ?_, ?_, ?_, ?_, ?_, e75, ?_, e25, ?_⟩
  · intro l n
    exact (pairwise_sortDesc l).sublist (List.take_sublist n (sortDesc l))
  · intro l n
    rw [chartItems, List.length_take]
    exact Nat.min_le_left _ _
  · intro l; rfl
  · decide
  · decide
  · decide
  · rw [e75]
    simp only [pctText, r75]
    decide
  · rw [e25]
    simp only [pctText, r25]
    decide

/-- C5: the public-repo fallback triggers exactly on absence: a failed
profile fetch or a profile without the public-repo field resolves to the
number of listed repositories, while a present count of zero resolves to
zero. -/
theorem public_repos_fallback (user : List (String × Nat)) (repos : List Repo)
    (status : Nat) (body : List (String × Nat)) :
    (status ≠ 200 → resolve_public_repos (get_user_info status body) repos = repos.length) ∧
    (userGet user "public_repos" = none → resolve_public_repos user repos = repos.length) ∧
    (userGet user "public_repos" = some 0 → resolve_public_repos user repos = 0) := by
  refine ⟨?_, ?_, ?_⟩
  · intro h
    simp [get_user_info, h, resolve_public_repos]
  · intro h
    by_cases hu : user = [] <;> simp [resolve_public_repos, hu, h]
  · intro h
    have hu : user ≠ [] := by
      intro e
      rw [e] at h
      simp [userGet] at h
    simp [resolve_public_repos, hu, h]

/-- C5 witness: a failed fetch and a field-less profile both fall back to
the repository count, and an explicit zero stays zero. -/
theorem public_repos_fallback_witness :
    resolve_public_repos (get_user_info 404 [("public_repos", 7)]) [] = 0 ∧
    resolve_public_repos [("followers", 3)] [] = 0 ∧
    resolve_public_repos [("public_repos", 0)] [] = 0 :=
  ⟨(public_repos_fallback [("followers", 3)] [] 404 [("public_repos", 7)]).1 (by decide),
   (public_repos_fallback [("followers", 3)] [] 404 [("public_repos", 7)]).2.1 (by decide),
   (public_repos_fallback [("public_repos", 0)] [] 404 []).2.2 (by decide)⟩

/-- C6: an empty language mapping renders to a valid zero-row SVG document
(header, style, closing tag only) with height twice the padding, and a zero
grand total makes every percentage 0 without taking the division branch. -/
theorem empty_chart_valid_svg (n b : Nat) :
    build_svg [] n = [svgHeader (2 * padding), styleLine, "</svg>"] ∧
    svgHeight ([] : List (String × Nat)) = 2 * padding ∧
    pct 0 b = 0 := by
  refine ⟨?_, by decide, by simp [pct]⟩
  simp [build_svg, chartItems, sortDesc, rowsLines, svgHeight]
  decide

/-- C7: for every rendered percentage text the renderer either keeps the
left anchor with the estimated text extent inside the canvas width minus
the padding, or switches to the end anchor flush at the right margin. -/
theorem pct_text_within_canvas (total bytes : Nat) :
    ((pctPos (pctText (pct total bytes))).2 = "start" ∧
      (pctPos (pctText (pct total bytes))).1 + est_text_w (pctText (pct total bytes)) ≤
        width - padding) ∨
    ((pctPos (pctText (pct total bytes))).2 = "end" ∧
      (pctPos (pctText (pct total bytes))).1 = width - padding) := by
  unfold pctPos
  split
  · right
    exact ⟨rfl, rfl⟩
  · left
    next h =>
    refine ⟨rfl, ?_⟩
    have hle := Nat.le_of_not_lt h
    simpa [max_pct_x] using hle

/-- C9: the badge is at least as wide as the two minimum segment floors
80 + 50 combined, and each segment's width is monotone in its text's
length. -/
theorem badge_width_floor_monotone (label value label2 value2 : String)
    (hl : label.length ≤ label2.length) (hv : value.length ≤ value2.length) :
    80 + 50 ≤ badge_width label value ∧
    badge_left_w label ≤ badge_left_w label2 ∧
    badge_right_w value ≤ badge_right_w value2 := by
  refine ⟨?_, ?_, ?_⟩
  · exact Nat.add_le_add (Nat.le_max_left _ _) (Nat.le_max_left _ _)
  · exact max_le_max (Nat.le_refl 80) (by omega)
  · exact max_le_max (Nat.le_refl 50) (by omega)

/-- C9 witness: concrete badge widths at growing label and value texts. -/
theorem badge_width_floor_monotone_witness :
    ("ab".length ≤ "abcdefghijkl".length ∧ "7".length ≤ "123456789".length) ∧
    (80 + 50 ≤ badge_width "ab" "7" ∧
      badge_left_w "ab" ≤ badge_left_w "abcdefghijkl" ∧
      badge_right_w "7" ≤ badge_right_w "123456789") :=
  ⟨⟨by decide, by decide⟩,
    badge_width_floor_monotone "ab" "7" "abcdefghijkl" "123456789" (by decide) (by decide)⟩

/-- The repository lister aborts with the offending status code as soon as
it reaches a non-200 page: if the first `k` pages succeed with non-empty
bodies and page `page + k` fails, the whole run returns that error. -/
theorem getReposAux_error (pages : Nat → PageResp) :
    ∀ (k fuel page : Nat) (acc : List Repo),
      (∀ j, j < k → (pages (page + j)).status = 200 ∧ (pages (page + j)).body ≠ []) →
      (pages (page + k)).status ≠ 200 → k < fuel →
      getReposAux pages fuel page acc = some (Except.error (pages (page + k)).status) := by
  intro k
  induction k with
  | zero =>
    intro fuel page acc _ hbad hfuel
    obtain ⟨f, rfl⟩ : ∃ f, fuel = f + 1 := ⟨fuel - 1, by omega⟩
    have hb : (pages page).status ≠ 200 := by simpa using hbad
    simp [getReposAux, hb]
  | succ k ih =>
    intro fuel page acc hpre hbad hfuel
    obtain ⟨f, rfl⟩ : ∃ f, fuel = f + 1 := ⟨fuel - 1, by omega⟩
    have h0 := hpre 0 (Nat.succ_pos k)
    have hst : (pages page).status = 200 := by simpa using h0.1
    have hbo : ¬((pages page).body = []) := by simpa using h0.2
    have hpre2 : ∀ j, j < k →
        (pages (page + 1 + j)).status = 200 ∧ (pages (page + 1 + j)).body ≠ [] := by
      intro j hj
      have e : page + 1 + j = page + (j + 1) := by omega
      rw [e]
      exact hpre (j + 1) (by omega)
    have hbad2 : (pages (page + 1 + k)).status ≠ 200 := by
      have e : page + 1 + k = page + (k + 1) := by omega
      rw [e]
      exact hbad
    have hrec := ih f (page + 1) (acc ++ (pages page).body) hpre2 hbad2 (by omega)
    have e : page + 1 + k = page + (k + 1) := by omega
    rw [e] at hrec
    simpa [getReposAux, hst, hbo] using hrec

/-- C3: the two-tier error policy: a non-success page while listing
repositories aborts the run with that status, while a non-success profile
fetch returns the empty result and a repository whose language fetch failed
is merely skipped by the aggregation. -/
theorem two_tier_error_policy (pages : Nat → PageResp) (k fuel status : Nat)
    (body : List (String × Nat)) (r : Repo) (rest : List Repo)
    (hpre : ∀ j, j < k → (pages (1 + j)).status = 200 ∧ (pages (1 + j)).body ≠ [])
    (hbad : (pages (1 + k)).status ≠ 200) (hfuel : k < fuel)
    (hstatus : status ≠ 200) (hr : r.langResp = none) :
    get_repos pages fuel = some (Except.error (pages (1 + k)).status) ∧
    get_user_info status body = [] ∧
    aggregate_languages (r :: rest) = aggregate_languages rest := by
  refine ⟨getReposAux_error pages k fuel 1 [] hpre hbad hfuel, ?_, ?_⟩
  · simp [get_user_info, hstatus]
  · unfold aggregate_languages
    rw [List.foldl_cons, repoStep_skip r hr]

/-- A page response that always fails with status 500. -/
def failingPages : Nat → PageResp := fun _ => ⟨500, []⟩

/-- A non-archived repository whose language fetch returned a non-200
status. -/
def failedFetchRepo : Repo :=
  { archived := false, stargazers_count := some 1, languages_url := some "u",
    langResp := none }

/-- An ordinary non-archived repository with a successful language fetch. -/
def okRepo : Repo :=
  { archived := false, stargazers_count := some 2, languages_url := some "v",
    langResp := some [("C", 10)] }

/-- C3 witness: with every page failing at status 500, the lister aborts
with error 500; a 404 profile fetch yields the empty profile; a repository
with a failed language fetch is skipped. -/
theorem two_tier_error_policy_witness :
    get_repos failingPages 1 = some (Except.error 500) ∧
    get_user_info 404 [("followers", 2)] = [] ∧
    aggregate_languages [failedFetchRepo, okRepo] = aggregate_languages [okRepo] :=
  two_tier_error_policy failingPages 0 1 404 [("followers", 2)] failedFetchRepo [okRepo]
    (fun j hj => absurd hj (Nat.not_lt_zero j)) (by decide) (by decide) (by decide) rfl

/-- C4: aggregation is resilient to a single failing language fetch: when
one repository's fetch fails among otherwise non-archived, successful
repositories, the totals equal the aggregation of the other repositories
only. -/
theorem aggregate_resilient_single_failure (l1 l2 : List Repo) (r : Repo)
    (_hok : ∀ x ∈ l1 ++ l2, x.archived = false ∧ x.langResp ≠ none)
    (_hra : r.archived = false) (hrf : r.langResp = none) :
    aggregate_languages (l1 ++ r :: l2) = aggregate_languages (l1 ++ l2) := by
  unfold aggregate_languages
  rw [List.foldl_append, List.foldl_cons, repoStep_skip r hrf, ← List.foldl_append]

/-- C4 witness: two successful repositories around one failed fetch
aggregate exactly as the two successful ones alone. -/
theorem aggregate_resilient_single_failure_witness :
    (∀ x ∈ [okRepo] ++ [okRepo], x.archived = false ∧ x.langResp ≠ none) ∧
    aggregate_languages ([okRepo] ++ failedFetchRepo :: [okRepo]) =
      aggregate_languages ([okRepo] ++ [okRepo]) :=
  ⟨by decide,
    aggregate_resilient_single_failure [okRepo] [okRepo] failedFetchRepo (by decide) rfl rfl⟩

/-- Summing a list of scaled rationals factors through the sum. -/
theorem sum_map_div_mul (G : ℚ) (l : List (String × Nat)) :
    (l.map fun kv => (kv.2 : ℚ) / G * 100).sum =
      (l.map fun kv => (kv.2 : ℚ)).sum / G * 100 := by
  induction l with
  | nil => simp
  | cons a t ih =>
    simp only [List.map_cons, List.sum_cons, ih, add_div, add_mul]

/-- C8: over exact rational arithmetic, the percentages computed for the
full unfiltered language mapping sum to 100 whenever the grand total is
positive. -/
theorem pct_sum_100 (l : List (String × Nat)) (h : 0 < total_bytes l) :
    (l.map fun kv => pct (total_bytes l) kv.2).sum = 100 := by
  have hne : total_bytes l ≠ 0 := Nat.pos_iff_ne_zero.mp h
  have hG : ((total_bytes l : ℕ) : ℚ) ≠ 0 := by exact_mod_cast hne
  have hmap : (l.map fun kv => pct (total_bytes l) kv.2) =
      l.map fun kv => (kv.2 : ℚ) / ((total_bytes l : ℕ) : ℚ) * 100 := by
    simp [pct, hne]
  rw [hmap, sum_map_div_mul]
  have hsum : (l.map fun kv => (kv.2 : ℚ)).sum = ((total_bytes l : ℕ) : ℚ) := by
    rw [total_bytes, Nat.cast_list_sum, List.map_map]
    rfl
  rw [hsum, div_self hG, one_mul]

/-- C8 witness: a one-language mapping has positive grand total and its
percentages sum to 100. -/
theorem pct_sum_100_witness :
    0 < total_bytes [("A", 1)] ∧
    (([("A", 1)] : List (String × Nat)).map
      fun kv => pct (total_bytes [("A", 1)]) kv.2).sum = 100 :=
  ⟨by decide, pct_sum_100 [("A", 1)] (by decide)⟩

/-- C10: each bar stays inside the allocated bar area: the bar length is
non-negative, at most the bar width, and the bar's right edge stays at or
left of the reserved right margin. -/
theorem bar_within_area (l : List (String × Nat)) (kv : String × Nat) (h : kv ∈ l) :
    0 ≤ bar_len (pct (total_bytes l) kv.2) ∧
    bar_len (pct (total_bytes l) kv.2) ≤ (bar_w : ℤ) ∧
    (bar_x : ℤ) + bar_len (pct (total_bytes l) kv.2) ≤ ((width - padding - 40 : ℕ) : ℤ) := by
  have hble : kv.2 ≤ total_bytes l := by
    unfold total_bytes
    exact List.single_le_sum (fun x _ => Nat.zero_le x) _ (List.mem_map_of_mem Prod.snd h)
  have hmain : 0 ≤ bar_len (pct (total_bytes l) kv.2) ∧
      bar_len (pct (total_bytes l) kv.2) ≤ (bar_w : ℤ) := by
    by_cases hG : total_bytes l = 0
    · rw [hG]
      refine ⟨?_, ?_⟩ <;> simp [pct, bar_len]
    · have hGpos : (0 : ℚ) < ((total_bytes l : ℕ) : ℚ) := by
        exact_mod_cast Nat.pos_of_ne_zero hG
      have hp : pct (total_bytes l) kv.2 =
          (kv.2 : ℚ) / ((total_bytes l : ℕ) : ℚ) * 100 := by
        simp [pct, hG]
      have hp0 : 0 ≤ pct (total_bytes l) kv.2 := by
        rw [hp]; positivity
      have hp100 : pct (total_bytes l) kv.2 ≤ 100 := by
        rw [hp]
        have h1 : (kv.2 : ℚ) / ((total_bytes l : ℕ) : ℚ) ≤ 1 :=
          (div_le_one hGpos).mpr (by exact_mod_cast hble)
        calc (kv.2 : ℚ) / ((total_bytes l : ℕ) : ℚ) * 100 ≤ 1 * 100 :=
              mul_le_mul_of_nonneg_right h1 (by norm_num)
          _ = 100 := one_mul 100
      unfold bar_len
      split
      · set q : ℚ := (bar_w : ℚ) * (pct (total_bytes l) kv.2 / 100) with hq
        have hq0 : 0 ≤ q := by
          rw [hq]; positivity
        have hqw : q ≤ (bar_w : ℚ) := by
          rw [hq]
          have h2 : pct (total_bytes l) kv.2 / 100 ≤ 1 :=
            (div_le_one (by norm_num)).mpr hp100
          calc (bar_w : ℚ) * (pct (total_bytes l) kv.2 / 100) ≤ (bar_w : ℚ) * 1 :=
                mul_le_mul_of_nonneg_left h2 (by positivity)
            _ = (bar_w : ℚ) := mul_one _
        have hpy : pyInt q = ⌊q⌋ := by
          rw [pyInt, Int.tdiv_eq_ediv (Rat.num_nonneg.mpr hq0) (by positivity), Rat.floor_def]
        rw [hpy]
        refine ⟨Int.floor_nonneg.mpr hq0, ?_⟩
        have h3 : ⌊q⌋ ≤ ⌊(bar_w : ℚ)⌋ := Int.floor_le_floor hqw
        rwa [Int.floor_natCast] at h3
      · exact ⟨le_refl 0, by positivity⟩
  refine ⟨hmain.1, hmain.2, ?_⟩
  have hc : ((width - padding - 40 : ℕ) : ℤ) = (bar_x : ℤ) + (bar_w : ℤ) := by decide
  rw [hc]
  omega

/-- C10 witness: the single bar of a one-language chart stays inside the
bar area. -/
theorem bar_within_area_witness :
    (("Go", 100) ∈ ([("Go", 100)] : List (String × Nat))) ∧
    (0 ≤ bar_len (pct (total_bytes [("Go", 100)]) 100) ∧
      bar_len (pct (total_bytes [("Go", 100)]) 100) ≤ (bar_w : ℤ) ∧
      (bar_x : ℤ) + bar_len (pct (total_bytes [("Go", 100)]) 100) ≤
        ((width - padding - 40 : ℕ) : ℤ)) :=
  ⟨by decide, bar_within_area [("Go", 100)] ("Go", 100) (by decide)⟩

end TopLangs
